import Mathlib

/-
Verification of the criteria query engine (WaterlineQueryService), the
association manager (BaseAssociationService) and the entity service
column/relation split (CrudService) of nestjs-blueprint-crud.

The embedding follows src/lib/services/waterline-query.service.ts
(applyComparison, applyCriteria, findWithModifiers, countWithModifiers),
src/lib/services/base-association.service.ts (addAssociation,
replaceAssociations) and src/lib/services/base.service.ts (CrudService.update,
separateColumnsAndRelations).  TypeORM's query builder and relation query
builder are external capabilities; they are modelled by explicit state:
the select query builder accumulates joins, flat where clauses, order,
pagination and the projection list, and the relation builder mutates an
explicit parent/child id table.  JavaScript dynamic values are modelled by
a scalar `Value` type plus an `Operand` type that may carry an array
(used by the `in` / `nin` modifiers).
-/

namespace BlueprintCrud

/-- Scalar values of the JSON criteria surface and of stored records. -/
inductive Value where
  | intV (i : Int)
  | strV (s : String)
  | nullV
deriving DecidableEq, Repr

/-- Operand of a where-clause modifier: a scalar, or an array of scalars
(as used by `in` and `nin`). -/
inductive Operand where
  | single (v : Value)
  | many (vs : List Value)
deriving DecidableEq, Repr

/-- JavaScript template-literal coercion of an operand to a string, used by
`applyComparison` when it builds LIKE patterns for `contains`, `startsWith`
and `endsWith`. -/
def jsToString : Operand → String
  | .single (.intV i) => toString i
  | .single (.strV s) => s
  | .single .nullV => "null"
  | .many vs => String.intercalate "," (vs.map (fun v =>
      match v with
      | .intV i => toString i
      | .strV s => s
      | .nullV => "null"))

/-- Parameterized SQL comparison emitted for one where-clause leaf.  The
source emits a condition string with a uniquely named bound parameter; the
structured form below records the same condition (column, comparison and
bound operand), so that no information of the compiled predicate is lost. -/
inductive SqlCond where
  | eqC (col : String) (v : Value)
  | neC (col : String) (op : Operand)
  | ltC (col : String) (op : Operand)
  | leC (col : String) (op : Operand)
  | gtC (col : String) (op : Operand)
  | geC (col : String) (op : Operand)
  | inC (col : String) (op : Operand)
  | ninC (col : String) (op : Operand)
  | likeC (col : String) (pat : String)
deriving DecidableEq, Repr

/-- Boolean connective of a compiled clause: `andWhere` or `orWhere`. -/
inductive Conn where
  | andW
  | orW
deriving DecidableEq, Repr

/-- One query-builder where call: the connective used and the compiled
condition. -/
abbrev Clause := Conn × SqlCond

/-- A stored row: an association list from column name to value. -/
abbrev Record := List (String × Value)

/-- Modifier dispatch of `applyComparison` in waterline-query.service.ts:
maps a supported modifier to the compiled comparison.  The source's
`default` branch logs `Unsupported modifier` and returns without appending
any clause; that silently-dropped case is `none` here. -/
def applyComparison (key : String) (modifier : String) (modifierValue : Operand) :
    Option SqlCond :=
  match modifier with
  | "<" => some (.ltC key modifierValue)
  | "<=" => some (.leC key modifierValue)
  | ">" => some (.gtC key modifierValue)
  | ">=" => some (.geC key modifierValue)
  | "!=" => some (.neC key modifierValue)
  | "in" => some (.inC key modifierValue)
  | "nin" => some (.ninC key modifierValue)
  | "contains" => some (.likeC key ("%" ++ jsToString modifierValue ++ "%"))
  | "startsWith" => some (.likeC key (jsToString modifierValue ++ "%"))
  | "endsWith" => some (.likeC key ("%" ++ jsToString modifierValue))
  | _ => none

mutual
/-- One entry (object key) of a where-criteria object, in insertion order:
a field with a plain equality value, a field with a modifier object, or an
`and` / `or` key holding an array of sub-criteria. -/
inductive CritEntry where
  | fieldEq (key : String) (v : Value)
  | fieldMods (key : String) (ms : List (String × Operand))
  | andGroup (subs : List Crit)
  | orGroup (subs : List Crit)

/-- A where-criteria object: its entries in key insertion order. -/
inductive Crit where
  | node (entries : List CritEntry)
end

mutual
/-- Embedding of `applyCriteria`: walks a criteria object and returns, in
order, the flat sequence of where calls appended to the query builder.
`conn` is the `operator` argument (`and` uses `andWhere`, `or` uses
`orWhere`).  A key that is not a column of the schema is skipped (`if
(!column) continue`).  An unsupported modifier is dropped by
`applyComparison`. -/
def applyCriteria (cols : List String) (c : Crit) (conn : Conn) : List Clause :=
  match c with
  | .node entries => applyCriteriaEntries cols entries conn

/-- Iteration of `applyCriteria` over the keys of one criteria object. -/
def applyCriteriaEntries (cols : List String) (es : List CritEntry) (conn : Conn) :
    List Clause :=
  match es with
  | [] => []
  | e :: rest => applyCriteriaEntry cols e conn ++ applyCriteriaEntries cols rest conn

/-- Compilation of a single criteria key.  `and` / `or` keys recurse into
each sub-criterion with the corresponding connective; no bracket group is
opened, so the children's clauses are spliced into the enclosing flat
clause list. -/
def applyCriteriaEntry (cols : List String) (e : CritEntry) (conn : Conn) :
    List Clause :=
  match e with
  | .fieldEq k v => if cols.contains k then [(conn, .eqC k v)] else []
  | .fieldMods k ms =>
      if cols.contains k then
        (ms.filterMap (fun mv => applyComparison k mv.1 mv.2)).map (fun a => (conn, a))
      else []
  | .andGroup subs => applyCriteriaList cols subs .andW
  | .orGroup subs => applyCriteriaList cols subs .orW

/-- Iteration of `applyCriteria` over an `and` / `or` array of
sub-criteria. -/
def applyCriteriaList (cols : List String) (cs : List Crit) (conn : Conn) :
    List Clause :=
  match cs with
  | [] => []
  | c :: rest => applyCriteria cols c conn ++ applyCriteriaList cols rest conn
end

/-- SQL LIKE matching with `%` wildcards (the only wildcard the compiled
patterns use). -/
def likeMatch : List Char → List Char → Bool
  | [], [] => true
  | [], _ :: _ => false
  | '%' :: ps, s =>
      likeMatch ps s ||
        (match s with
         | [] => false
         | _ :: s' => likeMatch ('%' :: ps) s')
  | p :: ps, [] => p == '%' && likeMatch ps []
  | p :: ps, c :: ss => p == c && likeMatch ps ss
termination_by p s => (s.length, p.length)

/-- Value order used to interpret the SQL comparison operators: integers by
integer order, strings lexicographically, anything else incomparable. -/
def valueLt : Value → Value → Bool
  | .intV a, .intV b => a < b
  | .strV a, .strV b => a < b
  | _, _ => false

/-- Non-strict companion of `valueLt`. -/
def valueLe : Value → Value → Bool
  | .intV a, .intV b => a ≤ b
  | .strV a, .strV b => a ≤ b
  | _, _ => false

/-- Elements of an operand, for `IN` / `NOT IN`: an array operand lists its
elements; a scalar bound to a spread parameter has no well-defined SQL
meaning and is interpreted as the empty list. -/
def operandElems : Operand → List Value
  | .many vs => vs
  | .single _ => []

/-- Store-side truth value of one compiled comparison on one row.  This is
the semantics of the parameterized SQL fragment `applyComparison` emits. -/
def evalAtom (r : Record) : SqlCond → Bool
  | .eqC col v =>
      match r.lookup col with
      | some w => w == v
      | none => false
  | .neC col op =>
      match r.lookup col, op with
      | some w, .single v => w != v
      | _, _ => false
  | .ltC col op =>
      match r.lookup col, op with
      | some w, .single v => valueLt w v
      | _, _ => false
  | .leC col op =>
      match r.lookup col, op with
      | some w, .single v => valueLe w v
      | _, _ => false
  | .gtC col op =>
      match r.lookup col, op with
      | some w, .single v => valueLt v w
      | _, _ => false
  | .geC col op =>
      match r.lookup col, op with
      | some w, .single v => valueLe v w
      | _, _ => false
  | .inC col op =>
      match r.lookup col with
      | some w => (operandElems op).contains w
      | none => false
  | .ninC col op =>
      match r.lookup col with
      | some w => !((operandElems op).contains w)
      | none => false
  | .likeC col pat =>
      match r.lookup col with
      | some (.strV s) => likeMatch pat.toList s.toList
      | _ => false

/-- SQL evaluation of the flat clause list built by consecutive
`andWhere` / `orWhere` calls: the condition string is
`c1 CONN2 c2 CONN3 c3 ...` and `AND` binds tighter than `OR`.  `done` is
the disjunction of the completed AND-groups, `cur` the current AND-group. -/
def evalGo (r : Record) (done cur : Bool) : List Clause → Bool
  | [] => done || cur
  | (.andW, c) :: rest => evalGo r done (cur && evalAtom r c) rest
  | (.orW, c) :: rest => evalGo r (done || cur) (evalAtom r c) rest

/-- Truth value of the whole accumulated where expression on one row.  The
connective of the first clause is irrelevant (the first where call starts
the expression); an empty clause list matches every row. -/
def evalClauses (r : Record) : List Clause → Bool
  | [] => true
  | (_, c) :: rest => evalGo r false (evalAtom r c) rest

/-- Error surface of the services: `NotFoundException`,
`BadRequestException` (never thrown by the present query-engine code, but
demanded by its unit tests) and a plain JavaScript `Error`. -/
inductive ApiError where
  | notFound (msg : String)
  | badRequest (msg : String)
  | genericError (msg : String)
deriving DecidableEq, Repr

/-- Entity metadata consumed by the query engine: entity name, column
property paths, and relation property names. -/
structure Schema where
  name : String
  columns : List String
  relations : List String
deriving Repr

/-- Criteria shape of crud.interfaces.ts as the query engine consumes it.
`select`, `omit` and `populate` arrive as comma-separated strings or
arrays; both forms reduce to the trimmed name list modelled here.  `sort`
is modelled in its array-of-pairs form (the single-field string form is a
one-element list). -/
structure Criteria where
  whereC : Option Crit := none
  limit : Option Nat := none
  skip : Option Nat := none
  sort : Option (List (String × String)) := none
  select : Option (List String) := none
  omitC : Option (List String) := none
  populate : Option (List String) := none

/-- Select-query-builder state accumulated by `findWithModifiers` before
execution: joins, flat where clauses, pagination, ordering and the
projection list (`none` when no `select`/`omit` was given, so all columns
are fetched). -/
structure QB where
  joins : List (String × String) := []
  clauses : List Clause := []
  takeN : Option Nat := none
  skipN : Option Nat := none
  orders : List (String × String) := []
  selection : Option (List String) := none
deriving Repr

/-- Substring test on character lists, used to model JavaScript
`String.prototype.includes`. -/
def listContainsSub : List Char → List Char → Bool
  | _, [] => true
  | [], _ :: _ => false
  | c :: cs, sub => List.isPrefixOf sub (c :: cs) || listContainsSub cs sub

/-- JavaScript `s.includes(sub)`. -/
def strContainsSub (s sub : String) : Bool :=
  listContainsSub s.toList sub.toList

/-- Join planning of `findWithModifiers`: each populate entry is resolved
against the schema's relations; the first unknown name aborts with the
thrown `Error` (a plain `Error`, not a `BadRequestException`), and a valid
entry contributes a left join of `entity.<name>` aliased
`populate_<name>`. -/
def resolvePopulate (schema : Schema) (names : List String) :
    Except ApiError (List (String × String)) :=
  match names with
  | [] => .ok []
  | a :: rest =>
      if schema.relations.contains a then
        (resolvePopulate schema rest).map
          (fun js => ("entity." ++ a, "populate_" ++ a) :: js)
      else
        .error (.genericError
          ("Invalid association \"" ++ a ++ "\" in \"" ++ schema.name ++ "\""))

/-- Compilation phase of `findWithModifiers`, in source order: populate
joins (the only step that can fail), where clauses, `take`/`skip` (a zero
limit or skip is falsy in JavaScript and therefore not applied), ordering,
then the projection.  With `select`, the requested fields are prefixed
with `entity.`, `entity.id` is prepended when no prefixed field contains
the substring `.id`, and one `populate_<name>` alias is appended per
populated relation.  With `omit` (and no `select`), the projection is all
schema columns except the omitted names, plus the same aliases; nothing is
re-added.  The relation re-lookup inside the projection branches cannot
fail because join planning already validated every populate entry. -/
def buildFindQuery (schema : Schema) (c : Criteria) : Except ApiError QB :=
  let populateOptions := c.populate.getD []
  match resolvePopulate schema populateOptions with
  | .error e => .error e
  | .ok joins =>
      let clauses :=
        match c.whereC with
        | some w => applyCriteria schema.columns w .andW
        | none => []
      let takeN :=
        match c.limit with
        | some n => if n != 0 then some n else none
        | none => none
      let skipN :=
        match c.skip with
        | some n => if n != 0 then some n else none
        | none => none
      let orders := (c.sort.getD [])
      let selection :=
        match c.select with
        | some sel =>
            let selectFields := sel.map (fun f => "entity." ++ f)
            let selectFields :=
              if selectFields.any (fun f => strContainsSub f ".id") then
                selectFields
              else
                "entity.id" :: selectFields
            some (selectFields ++ populateOptions.map (fun a => "populate_" ++ a))
        | none =>
            match c.omitC with
            | some om =>
                let base := (schema.columns.filter (fun col => !om.contains col)).map
                  (fun f => "entity." ++ f)
                some (base ++ populateOptions.map (fun a => "populate_" ++ a))
            | none => none
      .ok { joins := joins, clauses := clauses, takeN := takeN, skipN := skipN,
            orders := orders, selection := selection }

/-- Store-side execution of the compiled statement: rows matching the
accumulated where expression, after the skip and take bounds.  Ordering
and column projection shape the rows but do not change which rows the one
issued query returns, and are left to the store. -/
def executeQuery (store : List Record) (qb : QB) : List Record :=
  let filtered := store.filter (fun r => evalClauses r qb.clauses)
  let afterSkip :=
    match qb.skipN with
    | some n => filtered.drop n
    | none => filtered
  match qb.takeN with
  | some n => afterSkip.take n
  | none => afterSkip

/-- Embedding of `findWithModifiers`: compile, then execute exactly once.
The second component counts the queries issued against the store; a
compilation failure (invalid populate entry) is thrown before
`getRawAndEntities` runs, so the count is zero on error. -/
def findWithModifiers (schema : Schema) (store : List Record) (c : Criteria) :
    Except ApiError (List Record) × Nat :=
  match buildFindQuery schema c with
  | .error e => (.error e, 0)
  | .ok qb => (.ok (executeQuery store qb), 1)

/-- Embedding of `countWithModifiers`: only the where clauses are compiled
(no populate, projection, ordering or pagination), then `getCount` is the
number of matching rows. -/
def countWithModifiers (schema : Schema) (store : List Record)
    (whereC : Option Crit) : Nat :=
  let clauses :=
    match whereC with
    | some w => applyCriteria schema.columns w .andW
    | none => []
  (store.filter (fun r => evalClauses r clauses)).length

mutual
/-- Reference semantics of a criteria tree in which every `and` / `or`
node is a single scoped group, as the specification describes.  Leaf
handling is identical to the compiled form (unknown columns and
unsupported modifiers are skipped); only the boolean scoping differs: a
criteria object is the conjunction of its entries, an `and` array the
conjunction of its sub-criteria and an `or` array the disjunction. -/
def scopedMatches (cols : List String) (r : Record) (c : Crit) : Bool :=
  match c with
  | .node entries => scopedMatchesEntries cols r entries

/-- Conjunction over the entries of one criteria object, scoped. -/
def scopedMatchesEntries (cols : List String) (r : Record) :
    List CritEntry → Bool
  | [] => true
  | e :: rest => scopedMatchesEntry cols r e && scopedMatchesEntries cols r rest

/-- Scoped truth value of a single criteria entry. -/
def scopedMatchesEntry (cols : List String) (r : Record) : CritEntry → Bool
  | .fieldEq k v => if cols.contains k then evalAtom r (.eqC k v) else true
  | .fieldMods k ms =>
      if cols.contains k then
        ms.all (fun mv =>
          match applyComparison k mv.1 mv.2 with
          | some a => evalAtom r a
          | none => true)
      else true
  | .andGroup subs => scopedMatchesAll cols r subs
  | .orGroup subs => scopedMatchesAny cols r subs

/-- Scoped conjunction over an `and` array. -/
def scopedMatchesAll (cols : List String) (r : Record) : List Crit → Bool
  | [] => true
  | c :: rest => scopedMatches cols r c && scopedMatchesAll cols r rest

/-- Scoped disjunction over an `or` array. -/
def scopedMatchesAny (cols : List String) (r : Record) : List Crit → Bool
  | [] => false
  | c :: rest => scopedMatches cols r c || scopedMatchesAny cols r rest
end

/-- Cardinality of a relation, as TypeORM's `RelationMetadata` flags
expose it to base-association.service.ts. -/
inductive RelKind where
  | manyToMany
  | oneToMany
  | manyToOne
  | oneToOne
deriving DecidableEq, Repr

/-- The `isManyToMany || isOneToMany` test used throughout the association
service. -/
def RelKind.isToMany : RelKind → Bool
  | .manyToMany => true
  | .oneToMany => true
  | .manyToOne => false
  | .oneToOne => false

/-- A relation-scoped mutation issued through the TypeORM relation query
builder (`.of(parent).add/remove/set`). -/
inductive RelOp where
  | addOp (parent : Nat) (fks : List Nat)
  | removeOp (parent : Nat) (fks : List Nat)
  | setManyOp (parent : Nat) (fks : List Nat)
  | setOneOp (parent : Nat) (fk : Option Nat)
deriving DecidableEq, Repr

/-- Store state seen by the association service: the existing parent ids,
the existing child ids, and the relation as a list of (parent id, child
id) pairs. -/
structure AssocState where
  parents : List Nat
  children : List Nat
  rel : List (Nat × Nat)
deriving DecidableEq, Repr

/-- Relation-scoped `loadMany`: the child ids currently related to the
parent. -/
def loadManyRel (st : AssocState) (p : Nat) : List Nat :=
  (st.rel.filter (fun pr => pr.1 == p)).map (fun pr => pr.2)

/-- Relation-scoped `loadOne`: the current to-one value, if any. -/
def loadOneRel (st : AssocState) (p : Nat) : Option Nat :=
  (loadManyRel st p).head?

/-- Relation-scoped `add`: attaches the given child ids to the parent. -/
def relAdd (st : AssocState) (p : Nat) (fks : List Nat) : AssocState :=
  { st with rel := st.rel ++ fks.map (fun fk => (p, fk)) }

/-- Relation-scoped `remove`: detaches the given child ids from the parent
(never deletes a child row). -/
def relRemove (st : AssocState) (p : Nat) (fks : List Nat) : AssocState :=
  { st with rel := st.rel.filter (fun pr => !(pr.1 == p && fks.contains pr.2)) }

/-- Relation-scoped `set` for a to-many relation: full-set replace. -/
def relSetMany (st : AssocState) (p : Nat) (fks : List Nat) : AssocState :=
  { st with rel := st.rel.filter (fun pr => !(pr.1 == p)) ++ fks.map (fun fk => (p, fk)) }

/-- Relation-scoped `set` for a to-one relation: `set(fk)` or
`set(null)`. -/
def relSetOne (st : AssocState) (p : Nat) (fk : Option Nat) : AssocState :=
  { st with
    rel := st.rel.filter (fun pr => !(pr.1 == p)) ++
      (match fk with
       | some k => [(p, k)]
       | none => []) }

/-- Embedding of `loadRelatedEntities`: `loadMany` for collection
relations, otherwise `loadOne` collected into a list of at most one id. -/
def loadRelatedEntities (st : AssocState) (kind : RelKind) (p : Nat) : List Nat :=
  if kind.isToMany then
    loadManyRel st p
  else
    match loadOneRel st p with
    | some k => [k]
    | none => []

/-- Association-service construction context: the parent entity's name and
its relation metadata (property name and cardinality). -/
structure AssocCtx where
  parentName : String
  parentRelations : List (String × RelKind)

/-- Embedding of `getRelationMetadata`'s lookup
(`findRelationWithPropertyPath`). -/
def lookupRelation (ctx : AssocCtx) (association : String) : Option RelKind :=
  ctx.parentRelations.lookup association

instance exceptDecEq {α β : Type} [DecidableEq α] [DecidableEq β] :
    DecidableEq (Except α β) := fun x y =>
  match x, y with
  | .error a, .error b =>
      if h : a = b then .isTrue (by rw [h])
      else .isFalse (by intro hc; cases hc; exact h rfl)
  | .ok a, .ok b =>
      if h : a = b then .isTrue (by rw [h])
      else .isFalse (by intro hc; cases hc; exact h rfl)
  | .error _, .ok _ => .isFalse (by intro hc; cases hc)
  | .ok _, .error _ => .isFalse (by intro hc; cases hc)

/-- Outcome of one association-service call: the returned re-hydrated
parent (its id and the relation contents it was populated with) or the
thrown error, the store state after the call, and the relation-scoped
mutations issued, in order. -/
structure AssocOut where
  result : Except ApiError (Nat × List Nat)
  state : AssocState
  trace : List RelOp
deriving DecidableEq, Repr

/-- Error thrown by `getRelationMetadata` for an unknown association: a
plain `Error`, thrown per call. -/
def relationMissingError (ctx : AssocCtx) (association : String) : ApiError :=
  .genericError
    ("Association \x27" ++ association ++ "\x27 not found in " ++ ctx.parentName)

/-- Error thrown by `BaseService.findOne` (used by `ensureParentExists`)
when the record does not exist. -/
def entityMissingError (id : Nat) : ApiError :=
  .notFound ("Entity with id " ++ toString id ++ " not found")

/-- Embedding of `addAssociation`, in source order: ensure the parent
exists, resolve the relation metadata, ensure the child exists (a child
query `findWithModifiers \x7bwhere: \x7bid: fk\x7d, limit: 1\x7d`,
modelled as membership in the child id table), load the current related
set through the relation builder, then issue the relation-scoped `add`
(to-many) or `set` (to-one) only when `fk` is not already present /
current; finally return the parent re-hydrated with that relation. -/
def addAssociation (ctx : AssocCtx) (st : AssocState) (id : Nat)
    (association : String) (fk : Nat) : AssocOut :=
  if !st.parents.contains id then
    { result := .error (entityMissingError id), state := st, trace := [] }
  else
    match lookupRelation ctx association with
    | none =>
        { result := .error (relationMissingError ctx association), state := st,
          trace := [] }
    | some kind =>
        if !st.children.contains fk then
          { result := .error
              (.notFound ("Child record with id " ++ toString fk ++ " not found")),
            state := st, trace := [] }
        else
          let existingRelations := loadRelatedEntities st kind id
          if kind.isToMany then
            if existingRelations.contains fk then
              { result := .ok (id, loadRelatedEntities st kind id), state := st,
                trace := [] }
            else
              let st' := relAdd st id [fk]
              { result := .ok (id, loadRelatedEntities st' kind id), state := st',
                trace := [.addOp id [fk]] }
          else
            if existingRelations.head? == some fk then
              { result := .ok (id, loadRelatedEntities st kind id), state := st,
                trace := [] }
            else
              let st' := relSetOne st id (some fk)
              { result := .ok (id, loadRelatedEntities st' kind id), state := st',
                trace := [.setOneOp id (some fk)] }

/-- Accumulator loop of `dedupIds`: keeps an element when it has not been
seen yet. -/
def dedupIdsAux (seen : List Nat) : List Nat → List Nat
  | [] => []
  | x :: rest =>
      if seen.contains x then dedupIdsAux seen rest
      else x :: dedupIdsAux (x :: seen) rest

/-- De-duplication `Array.from(new Set(...))` keeping first occurrences.
The preceding `Number(...)` coercion that drops non-numeric entries is
outside the model: ids are naturals already. -/
def dedupIds (l : List Nat) : List Nat :=
  dedupIdsAux [] l

/-- Embedding of `replaceAssociations`, in source order: ensure the parent
exists, resolve the relation, normalize `fks` (de-duplicate), and when the
normalized list is non-empty run the child existence query
(`findWithModifiers` with `id in normalizedIds`, modelled as the filter of
the child id table) — a count mismatch throws `NotFound` before any
mutation.  Then: many-to-many → one relation-scoped `set`; one-to-many →
load the existing ids, remove the ids not requested and add the ids not
present, each only when its delta is non-empty, remove first; to-one →
`set(normalizedIds[0] ?? null)`. -/
def replaceAssociations (ctx : AssocCtx) (st : AssocState) (id : Nat)
    (association : String) (fks : List Nat) : AssocOut :=
  if !st.parents.contains id then
    { result := .error (entityMissingError id), state := st, trace := [] }
  else
    match lookupRelation ctx association with
    | none =>
        { result := .error (relationMissingError ctx association), state := st,
          trace := [] }
    | some kind =>
        let normalizedIds := dedupIds fks
        let childRecords := st.children.filter (fun c => normalizedIds.contains c)
        if normalizedIds.length > 0 && childRecords.length != normalizedIds.length then
          { result := .error (.notFound "Some child records not found"), state := st,
            trace := [] }
        else
          match kind with
          | .manyToMany =>
              let st' := relSetMany st id normalizedIds
              { result := .ok (id, loadRelatedEntities st' kind id), state := st',
                trace := [.setManyOp id normalizedIds] }
          | .oneToMany =>
              let existingIds := loadRelatedEntities st kind id
              let idsToRemove := existingIds.filter (fun e => !normalizedIds.contains e)
              let st1 := if idsToRemove.length > 0 then relRemove st id idsToRemove else st
              let tr1 := if idsToRemove.length > 0 then [RelOp.removeOp id idsToRemove] else []
              let idsToAdd := normalizedIds.filter (fun c => !existingIds.contains c)
              let st2 := if idsToAdd.length > 0 then relAdd st1 id idsToAdd else st1
              let tr2 := if idsToAdd.length > 0 then [RelOp.addOp id idsToAdd] else []
              { result := .ok (id, loadRelatedEntities st2 kind id), state := st2,
                trace := tr1 ++ tr2 }
          | _ =>
              let st' := relSetOne st id normalizedIds.head?
              { result := .ok (id, loadRelatedEntities st' kind id), state := st',
                trace := [.setOneOp id normalizedIds.head?] }

/-- Payload of `CrudService.update`: the top-level keys with their values,
in insertion order. -/
abbrev Payload := List (String × Value)

/-- Embedding of `separateColumnsAndRelations`: the payload keys are
partitioned, preserving order, into column data (keys that are not
relation property names) and relation data (keys that are). -/
def separateColumnsAndRelations (relationPropertyNames : List String)
    (entityData : Payload) : Payload × Payload :=
  (entityData.filter (fun kv => !relationPropertyNames.contains kv.1),
   entityData.filter (fun kv => relationPropertyNames.contains kv.1))

/-- A persistence statement issued by `CrudService.update`: the direct
column-update statement (`repository.update`) or the full-entity save used
for relation assignment (`repository.save` after `Object.assign`). -/
inductive CrudOp where
  | columnUpdate (id : Nat) (data : Payload)
  | relationSave (id : Nat) (data : Payload)
deriving DecidableEq, Repr

/-- Assignment of one field into an entity's field list (override or
append). -/
def setField (ent : Payload) (k : String) (v : Value) : Payload :=
  if ent.any (fun kv => kv.1 == k) then
    ent.map (fun kv => if kv.1 == k then (k, v) else kv)
  else
    ent ++ [(k, v)]

/-- Merge of a partial payload into an entity (`Object.assign` / the SET
list of an update statement). -/
def mergeFields (ent : Payload) (data : Payload) : Payload :=
  data.foldl (fun acc kv => setField acc kv.1 kv.2) ent

/-- Entity table keyed by id. -/
abbrev EntityStore := List (Nat × Payload)

/-- Application of a column update or relation save to the table. -/
def updateEntityStore (store : EntityStore) (id : Nat) (data : Payload) :
    EntityStore :=
  store.map (fun e => if e.1 == id then (e.1, mergeFields e.2 data) else e)

/-- Embedding of `CrudService.update`: load the existing entity (throws
`NotFound` when absent), split the payload into column data and relation
data, issue the column-update statement when the column part is non-empty,
then the relation save when the relation part is non-empty, and return the
re-loaded entity.  The third component lists the statements issued, in
order. -/
def crudUpdate (relationPropertyNames : List String) (store : EntityStore)
    (id : Nat) (entityData : Payload) :
    Except ApiError Payload × EntityStore × List CrudOp :=
  match store.lookup id with
  | none => (.error (entityMissingError id), store, [])
  | some _ =>
      let parts := separateColumnsAndRelations relationPropertyNames entityData
      let columnData := parts.1
      let relationData := parts.2
      let st1 := if columnData.length > 0 then updateEntityStore store id columnData else store
      let tr1 := if columnData.length > 0 then [CrudOp.columnUpdate id columnData] else []
      let st2 := if relationData.length > 0 then updateEntityStore st1 id relationData else st1
      let tr2 := if relationData.length > 0 then [CrudOp.relationSave id relationData] else []
      let final :=
        match st2.lookup id with
        | some e => Except.ok e
        | none => Except.error (entityMissingError id)
      (final, st2, tr1 ++ tr2)

/-
Fixtures: the entity of the repository's waterline-query.service unit
tests (columns id, name, status, age, email, createdAt; one relation
`children`) and a small store.
-/

/-- Schema of the unit-test entity `TestEntity`. -/
def testSchema : Schema :=
  { name := "TestEntity"
    columns := ["id", "name", "status", "age", "email", "createdAt"]
    relations := ["children"] }

/-- Two fixture rows. -/
def testStore : List Record :=
  [[("id", .intV 1), ("name", .strV "Alice"), ("status", .strV "active"), ("age", .intV 10)],
   [("id", .intV 2), ("name", .strV "Bob"), ("status", .strV "inactive"), ("age", .intV 30)]]

/-- Criteria whose where references a field that is not a column. -/
def unknownFieldCriteria : Criteria :=
  { whereC := some (.node [.fieldEq "nonExistentField" (.strV "value")]) }

/-- C1.  The specification requires `find`/`count` to fail with a
validation error naming any `where`/`sort`/`select`/`omit` field that is
not a schema column.  The code instead skips an unknown where key without
error (`if (!column) continue` in `applyCriteria`) and never validates
sort, select or omit names, so a criteria whose where references
`nonExistentField` compiles to an empty predicate: `find` succeeds and
returns every row, and `count` returns the full row count.  The
repository's own unit tests (waterline-query.service.spec.ts, `invalid
where keys` et al.) expect a `BadRequestException` naming the key here, so
this is a defect of the code, exhibited at the failing input below. -/
theorem unknown_where_field_silently_ignored :
    testSchema.columns.contains "nonExistentField" = false ∧
    applyCriteria testSchema.columns (.node [.fieldEq "nonExistentField" (.strV "value")])
      .andW = [] ∧
    findWithModifiers testSchema testStore unknownFieldCriteria = (.ok testStore, 1) ∧
    countWithModifiers testSchema testStore unknownFieldCriteria.whereC = testStore.length := by
  decide

/-- Criteria using the unsupported comparison modifier `~`. -/
def unsupportedOpCriteria : Criteria :=
  { whereC := some (.node [.fieldMods "age" [("~", .single (.intV 25))]]) }

/-- C2.  The specification requires an unsupported comparison operator to
be a compile-time validation error, never silently dropped.  The code's
`applyComparison` default branch logs `Unsupported modifier` and returns
without appending a clause, so `\x7bage: \x7b"~": 25\x7d\x7d` compiles to
an empty predicate and every row — including one with age 10 — is matched
as if the comparison were absent.  The spec's design notes state the
source "logs and drops unknown operators — treat that as a defect to fix",
so this is a defect of the code, exhibited at the failing input below. -/
theorem unsupported_operator_silently_dropped :
    applyComparison "age" "~" (.single (.intV 25)) = none ∧
    applyCriteria testSchema.columns (.node [.fieldMods "age" [("~", .single (.intV 25))]])
      .andW = [] ∧
    findWithModifiers testSchema testStore unsupportedOpCriteria = (.ok testStore, 1) ∧
    countWithModifiers testSchema testStore unsupportedOpCriteria.whereC = testStore.length := by
  decide

/-- C8.  An unknown populate entry does abort `findWithModifiers` before
the single store query is issued (query count 0) with an error naming the
relation — but the thrown value is a plain `Error`, not the
`ValidationError`/`BadRequestException` the specification's taxonomy and
the repository's own unit tests (`invalid populate keys`, expecting
`BadRequestException` with message `Invalid populate key ...`) require. -/
theorem invalid_populate_plain_error_before_query :
    testSchema.relations.contains "nonExistentRelation" = false ∧
    findWithModifiers testSchema testStore { populate := some ["nonExistentRelation"] } =
      (.error (.genericError
        "Invalid association \"nonExistentRelation\" in \"TestEntity\""), 0) ∧
    (∀ msg, ApiError.genericError
        "Invalid association \"nonExistentRelation\" in \"TestEntity\"" ≠
      ApiError.badRequest msg) := by
  refine ⟨by decide, by decide, ?_⟩
  intro msg h
  cases h

/-- The or-array with a two-field branch used to refute C3's scoped-group
reading. -/
def mixedOrSubs : List Crit :=
  [Crit.node [.fieldEq "status" (.strV "active"), .fieldEq "name" (.strV "Bob")],
   Crit.node [.fieldEq "age" (.intV 3)]]

/-- A row satisfying only half of the first branch and not the second. -/
def mixedOrRecord : Record :=
  [("id", .intV 1), ("status", .strV "active"), ("name", .strV "X"), ("age", .intV 0)]

/-- C3 counterexample.  For the where condition
`\x7bor: [\x7bstatus: "active", name: "Bob"\x7d, \x7bage: 3\x7d]\x7d` the
claim says the compiled predicate matches a record iff at least one branch
matches it.  The code compiles each key of each branch as its own
`orWhere` call with no bracket group, producing the flat clause chain
`status = 'active' OR name = 'Bob' OR age = 3`; the row below (status
active, name X, age 0) matches that chain although neither branch matches
it under the scoped semantics, so the claimed equivalence is false. -/
theorem or_scoped_group_counterexample :
    ¬ (evalClauses mixedOrRecord
         (applyCriteria testSchema.columns (.node [.orGroup mixedOrSubs]) .andW) = true
        ↔ ∃ s ∈ mixedOrSubs, scopedMatches testSchema.columns mixedOrRecord s = true) := by
  decide

/-- Schema with a column whose name embeds `id` after the alias dot once
prefixed. -/
def identifierSchema : Schema :=
  { name := "IdentifierEntity"
    columns := ["id", "name", "identifier"]
    relations := [] }

/-- C4 counterexample.  The claim says the primary key is added to the
projection whenever it was not requested.  The code decides by testing
whether some prefixed select field contains the substring `.id`; for
`select = ["identifier"]` the prefixed field `entity.identifier` contains
`.id`, so `entity.id` is not added although `id` was not requested: the
compiled projection is exactly `["entity.identifier"]`. -/
theorem select_pk_not_added_counterexample :
    (["identifier"] : List String).contains "id" = false ∧
    (buildFindQuery identifierSchema { select := some ["identifier"] }).map QB.selection =
      .ok (some ["entity.identifier"]) ∧
    (["entity.identifier"] : List String).contains "entity.id" = false := by
  decide

/-- Association context with one to-many relation `children`, used by the
concrete association fixtures. -/
def childrenCtx : AssocCtx :=
  { parentName := "ParentEntity", parentRelations := [("children", .oneToMany)] }

/-- State in which parent 1 already has child 5 attached. -/
def alreadyAttachedState : AssocState :=
  { parents := [1], children := [5], rel := [(1, 5)] }

/-- C7 counterexample.  The claim says two successive `add(parentId, fk)`
calls issue exactly one underlying relation mutation for every existing
parent and child.  When `fk` is already associated before the first call,
both calls are no-ops and zero mutations are issued: with parent 1 and
child 5 already attached, both traces are empty, refuting "exactly
one". -/
theorem add_twice_exactly_one_mutation_counterexample :
    alreadyAttachedState.parents.contains 1 = true ∧
    alreadyAttachedState.children.contains 5 = true ∧
    ¬ ((addAssociation childrenCtx alreadyAttachedState 1 "children" 5).trace.length +
        (addAssociation childrenCtx
          (addAssociation childrenCtx alreadyAttachedState 1 "children" 5).state
          1 "children" 5).trace.length = 1) := by
  decide

/-
Helper lemmas shared by the claim theorems.
-/

theorem resolvePopulate_ok (schema : Schema) (names : List String)
    (h : ∀ a ∈ names, schema.relations.contains a = true) :
    resolvePopulate schema names =
      .ok (names.map (fun a => ("entity." ++ a, "populate_" ++ a))) := by
  induction names with
  | nil => rfl
  | cons a rest ih =>
      simp only [resolvePopulate, h a (List.mem_cons_self a rest), if_true,
        ih (fun b hb => h b (List.mem_cons_of_mem _ hb)), Except.map, List.map_cons]

theorem string_append_cancel {s t : String} (pre : String)
    (h : pre ++ s = pre ++ t) : s = t := by
  have hd := congrArg String.data h
  simp only [String.data_append] at hd
  exact String.ext (List.append_cancel_left hd)

/-- Discriminator for the relation-save statement of `CrudService`. -/
def CrudOp.isRelationSave : CrudOp → Bool
  | .relationSave _ _ => true
  | .columnUpdate _ _ => false

/-- C9.  On `update(id, payload)` of an existing entity the payload is
partitioned at the top level into column data (keys that are not relation
property names) and relation data (keys that are); the statements issued
are exactly the column update followed by the relation save, each present
only when its part is non-empty — in particular a pure-column payload
issues no relation save. -/
theorem update_splits_columns_and_relations
    (rels : List String) (store : EntityStore) (id : Nat) (payload : Payload)
    (hex : (store.lookup id).isSome = true) :
    (crudUpdate rels store id payload).2.2 =
      (if (separateColumnsAndRelations rels payload).1.length > 0
        then [CrudOp.columnUpdate id (separateColumnsAndRelations rels payload).1]
        else []) ++
      (if (separateColumnsAndRelations rels payload).2.length > 0
        then [CrudOp.relationSave id (separateColumnsAndRelations rels payload).2]
        else []) ∧
    ((∀ k ∈ payload.map Prod.fst, rels.contains k = false) →
      ∀ op ∈ (crudUpdate rels store id payload).2.2, op.isRelationSave = false) := by
  obtain ⟨e, he⟩ := Option.isSome_iff_exists.mp hex
  have heq : (crudUpdate rels store id payload).2.2 =
      (if (separateColumnsAndRelations rels payload).1.length > 0
        then [CrudOp.columnUpdate id (separateColumnsAndRelations rels payload).1]
        else []) ++
      (if (separateColumnsAndRelations rels payload).2.length > 0
        then [CrudOp.relationSave id (separateColumnsAndRelations rels payload).2]
        else []) := by
    simp only [crudUpdate, he]
  refine ⟨heq, ?_⟩
  intro hall op hop
  have hrel : (separateColumnsAndRelations rels payload).2 = [] := by
    apply List.filter_eq_nil_iff.mpr
    intro kv hkv
    intro hc
    rw [hall kv.1 (List.mem_map_of_mem Prod.fst hkv)] at hc
    cases hc
  rw [heq, hrel] at hop
  simp only [List.length_nil, gt_iff_lt, Nat.lt_irrefl, if_false, List.append_nil] at hop
  by_cases hc : (separateColumnsAndRelations rels payload).1.length > 0
  · rw [if_pos hc] at hop
    simp only [List.mem_singleton] at hop
    subst hop
    rfl
  · rw [if_neg hc] at hop
    cases hop

/-- C10.  When `omit` is given and `select` is not, the base projection is
exactly the schema's columns minus the omitted names, plus one join alias
per populated relation; the primary key is not re-added, so omitting `id`
excludes `entity.id` from the base projection. -/
theorem omit_projection_excludes_pk
    (schema : Schema) (om : List String) (c : Criteria)
    (hsel : c.select = none) (hom : c.omitC = some om)
    (hpop : ∀ a ∈ c.populate.getD [], schema.relations.contains a = true) :
    (buildFindQuery schema c).map QB.selection = .ok (some
        ((schema.columns.filter (fun col => !om.contains col)).map
            (fun f => "entity." ++ f) ++
          (c.populate.getD []).map (fun a => "populate_" ++ a))) ∧
      (om.contains "id" = true →
        "entity.id" ∉ (schema.columns.filter (fun col => !om.contains col)).map
          (fun f => "entity." ++ f)) := by
  constructor
  · simp only [buildFindQuery, resolvePopulate_ok schema (c.populate.getD []) hpop,
      hsel, hom, Except.map]
  · intro hid hmem
    obtain ⟨col, hcolmem, hEq⟩ := List.mem_map.mp hmem
    have hcol : col = "id" := by
      have h2 : "entity." ++ col = "entity." ++ "id" := by
        rw [hEq]; rfl
      exact string_append_cancel "entity." h2
    subst hcol
    have := (List.mem_filter.mp hcolmem).2
    simp only [hid] at this
    cases this

/-- C4 amended.  With a non-empty `select`, the compiled base projection
is exactly the selected columns plus the primary key plus one join alias
per populated relation — the primary key being prepended whenever no
selected field's prefixed name `entity.<f>` contains the substring `.id`
(a superset of "whenever `id` was not requested"; see the counterexample
for a non-requested case where it is skipped).  In particular
`select = ["name"]` always projects `entity.id`. -/
theorem select_projection_includes_pk
    (schema : Schema) (sel : List String) (c : Criteria)
    (hselc : c.select = some sel)
    (hnoid : sel.any (fun f => strContainsSub ("entity." ++ f) ".id") = false)
    (hpop : ∀ a ∈ c.populate.getD [], schema.relations.contains a = true) :
    (buildFindQuery schema c).map QB.selection = .ok (some
        ("entity.id" :: (sel.map (fun f => "entity." ++ f) ++
          (c.populate.getD []).map (fun a => "populate_" ++ a)))) := by
  have hany : (sel.map (fun f => "entity." ++ f)).any
      (fun f => strContainsSub f ".id") = false := by
    rw [List.any_map]
    exact hnoid
  simp only [buildFindQuery, resolvePopulate_ok schema (c.populate.getD []) hpop,
    hselc, hany, Bool.false_eq_true, if_false, List.cons_append, Except.map]

/-- Witness for C9: updating entity 1 (which exists) with a payload whose
`name` key is a column and whose `children` key is a relation issues the
column update first and the relation save second. -/
theorem update_splits_columns_and_relations_witness :
    (([(1, [("name", Value.strV "a")])] : EntityStore).lookup 1).isSome = true ∧
    (crudUpdate ["children"] [(1, [("name", Value.strV "a")])] 1
        [("name", Value.strV "b"), ("children", Value.intV 7)]).2.2 =
      [CrudOp.columnUpdate 1 [("name", Value.strV "b")],
       CrudOp.relationSave 1 [("children", Value.intV 7)]] := by
  refine ⟨by decide, ?_⟩
  have h := update_splits_columns_and_relations ["children"]
    [(1, [("name", Value.strV "a")])] 1
    [("name", Value.strV "b"), ("children", Value.intV 7)] (by decide)
  rw [h.1]
  decide

/-- Criteria omitting `id` and `status` while populating `children`. -/
def omitCrit : Criteria :=
  { omitC := some ["id", "status"], populate := some ["children"] }

/-- Witness for C10: omitting `id` and `status` on the test schema while
populating `children` projects exactly the remaining columns plus the join
alias, without `entity.id`. -/
theorem omit_projection_excludes_pk_witness :
    (omitCrit.select = none ∧ omitCrit.omitC = some ["id", "status"] ∧
      ∀ a ∈ omitCrit.populate.getD [], testSchema.relations.contains a = true) ∧
    (buildFindQuery testSchema omitCrit).map QB.selection =
      .ok (some ["entity.name", "entity.age", "entity.email", "entity.createdAt",
        "populate_children"]) ∧
    "entity.id" ∉ (testSchema.columns.filter
        (fun col => !(["id", "status"] : List String).contains col)).map
      (fun f => "entity." ++ f) := by
  refine ⟨⟨rfl, rfl, by decide⟩, ?_, ?_⟩
  · exact (omit_projection_excludes_pk testSchema ["id", "status"] omitCrit rfl rfl
      (by decide)).1.trans (by decide)
  · exact (omit_projection_excludes_pk testSchema ["id", "status"] omitCrit rfl rfl
      (by decide)).2 (by decide)

/-- Criteria selecting only `name` while populating `children`. -/
def selectNameCrit : Criteria :=
  { select := some ["name"], populate := some ["children"] }

/-- Witness for C4: `select = ["name"]` with `populate = ["children"]` on
the test schema projects `entity.id` although it was not requested. -/
theorem select_projection_includes_pk_witness :
    (selectNameCrit.select = some ["name"] ∧
      (["name"] : List String).any
        (fun f => strContainsSub ("entity." ++ f) ".id") = false ∧
      ∀ a ∈ selectNameCrit.populate.getD [], testSchema.relations.contains a = true) ∧
    (buildFindQuery testSchema selectNameCrit).map QB.selection =
      .ok (some ["entity.id", "entity.name", "populate_children"]) := by
  refine ⟨⟨rfl, by decide, by decide⟩, ?_⟩
  exact (select_projection_includes_pk testSchema ["name"] selectNameCrit rfl
    (by decide) (by decide)).trans (by decide)

/-- Ids an individual relation-scoped mutation touches. -/
def relOpIds : RelOp → List Nat
  | .addOp _ fks => fks
  | .removeOp _ fks => fks
  | .setManyOp _ fks => fks
  | .setOneOp _ (some k) => [k]
  | .setOneOp _ none => []

theorem mem_dedupIdsAux {a : Nat} :
    ∀ (seen l : List Nat), a ∈ dedupIdsAux seen l → a ∈ l := by
  intro seen l
  induction l generalizing seen with
  | nil => intro h; cases h
  | cons x rest ih =>
      intro h
      rw [dedupIdsAux] at h
      by_cases hc : seen.contains x
      · rw [if_pos hc] at h
        exact List.mem_cons_of_mem x (ih seen h)
      · rw [if_neg hc] at h
        rcases List.mem_cons.mp h with h1 | h2
        · exact h1 ▸ List.mem_cons_self x rest
        · exact List.mem_cons_of_mem x (ih (x :: seen) h2)

theorem dedupIdsAux_not_mem_seen {a : Nat} :
    ∀ (seen l : List Nat), a ∈ dedupIdsAux seen l → a ∉ seen := by
  intro seen l
  induction l generalizing seen with
  | nil => intro h; cases h
  | cons x rest ih =>
      intro h
      rw [dedupIdsAux] at h
      by_cases hc : seen.contains x
      · rw [if_pos hc] at h
        exact ih seen h
      · rw [if_neg hc] at h
        rcases List.mem_cons.mp h with h1 | h2
        · subst h1
          intro hax
          exact hc (List.elem_eq_true_of_mem hax)
        · have := ih (x :: seen) h2
          intro hax
          exact this (List.mem_cons_of_mem x hax)

theorem dedupIdsAux_nodup : ∀ (seen l : List Nat), (dedupIdsAux seen l).Nodup := by
  intro seen l
  induction l generalizing seen with
  | nil => exact List.nodup_nil
  | cons x rest ih =>
      rw [dedupIdsAux]
      by_cases hc : seen.contains x
      · rw [if_pos hc]
        exact ih seen
      · rw [if_neg hc]
        refine List.nodup_cons.mpr ⟨?_, ih (x :: seen)⟩
        intro hmem
        exact dedupIdsAux_not_mem_seen (x :: seen) rest hmem
          (List.mem_cons_self x seen)

theorem dedupIds_nodup (l : List Nat) : (dedupIds l).Nodup :=
  dedupIdsAux_nodup [] l

theorem loadManyRel_relAdd (st : AssocState) (p : Nat) (fks : List Nat) :
    loadManyRel (relAdd st p fks) p = loadManyRel st p ++ fks := by
  simp only [loadManyRel, relAdd, List.filter_append, List.map_append]
  congr 1
  induction fks with
  | nil => rfl
  | cons fk rest ih => simp [ih]

theorem loadOneRel_relSetOne (st : AssocState) (p : Nat) (fk : Nat) :
    loadOneRel (relSetOne st p (some fk)) p = some fk := by
  simp only [loadOneRel, loadManyRel, relSetOne, List.filter_append]
  have h1 : (st.rel.filter (fun pr => !(pr.1 == p))).filter (fun pr => pr.1 == p) = [] := by
    rw [List.filter_filter]
    apply List.filter_eq_nil_iff.mpr
    intro pr _
    cases hpr : pr.1 == p <;> simp [hpr]
  rw [h1]
  simp

/-- C5.  A `replace` whose de-duplicated id list is non-empty and contains
an id with no existing child fails with `NotFound("Some child records not
found")` and performs no relation mutation at all: the returned state is
the pre-call state and the mutation trace is empty (the existence check
runs before any `set`/`add`/`remove`). -/
theorem replace_missing_child_all_or_nothing
    (ctx : AssocCtx) (st : AssocState) (id : Nat) (assoc : String) (fks : List Nat)
    (kind : RelKind) (x : Nat)
    (hpar : st.parents.contains id = true)
    (hrel : lookupRelation ctx assoc = some kind)
    (hnodup : st.children.Nodup)
    (hx : x ∈ dedupIds fks) (hxm : x ∉ st.children) :
    replaceAssociations ctx st id assoc fks =
      { result := .error (.notFound "Some child records not found"), state := st,
        trace := [] } := by
  have hlt : (st.children.filter (fun c => (dedupIds fks).contains c)).length <
      (dedupIds fks).length := by
    have hsub : st.children.filter (fun c => (dedupIds fks).contains c) ⊆
        (dedupIds fks).erase x := by
      intro c hc
      have hcmem := List.mem_filter.mp hc
      have hcdedup : c ∈ dedupIds fks := by simpa using hcmem.2
      have hne : c ≠ x := fun h => hxm (h ▸ hcmem.1)
      exact (List.mem_erase_of_ne hne).mpr hcdedup
    have hle := ((hnodup.filter _).subperm hsub).length_le
    have herase := List.length_erase_of_mem hx
    have hpos := List.length_pos_of_mem hx
    omega
  have hcond : ((decide ((dedupIds fks).length > 0)) &&
      ((st.children.filter (fun c => (dedupIds fks).contains c)).length !=
        (dedupIds fks).length)) = true := by
    rw [Bool.and_eq_true]
    exact ⟨decide_eq_true (List.length_pos_of_mem hx), bne_iff_ne.mpr (Nat.ne_of_lt hlt)⟩
  simp only [replaceAssociations, hpar, Bool.not_true, Bool.false_eq_true, if_false,
    hrel, hcond, if_true]

/-- Witness for C5: with parent 1, existing children `[10]` and requested
ids `[10, 20]` (child 20 missing), `replace` fails with `NotFound` and the
relation pairs after the call equal the pairs before it, with no mutation
issued. -/
theorem replace_missing_child_all_or_nothing_witness :
    (({ parents := [1], children := [10], rel := [(1, 10)] } : AssocState).parents.contains 1
        = true ∧
      lookupRelation childrenCtx "children" = some RelKind.oneToMany ∧
      (20 : Nat) ∈ dedupIds [10, 20] ∧
      (20 : Nat) ∉ ([10] : List Nat)) ∧
    replaceAssociations childrenCtx { parents := [1], children := [10], rel := [(1, 10)] }
        1 "children" [10, 20] =
      { result := .error (.notFound "Some child records not found"),
        state := { parents := [1], children := [10], rel := [(1, 10)] }, trace := [] } := by
  refine ⟨⟨by decide, by decide, by decide, by decide⟩, ?_⟩
  exact replace_missing_child_all_or_nothing childrenCtx
    { parents := [1], children := [10], rel := [(1, 10)] } 1 "children" [10, 20]
    RelKind.oneToMany 20 (by decide) (by decide) (by decide) (by decide) (by decide)

/-- C6.  For a one-to-many `replace` whose requested children all exist,
the mutations issued are exactly one relation-scoped remove of
`existingIds − requested` when that delta is non-empty, followed by
exactly one relation-scoped add of `requested − existingIds` when that
delta is non-empty — and no issued mutation touches a child in the
intersection. -/
theorem replace_one_to_many_minimal_deltas
    (ctx : AssocCtx) (st : AssocState) (id : Nat) (assoc : String) (fks : List Nat)
    (hpar : st.parents.contains id = true)
    (hrel : lookupRelation ctx assoc = some RelKind.oneToMany)
    (hnodup : st.children.Nodup)
    (hex : ∀ x ∈ dedupIds fks, x ∈ st.children) :
    (replaceAssociations ctx st id assoc fks).trace =
      (if ((loadManyRel st id).filter (fun e => !(dedupIds fks).contains e)).length > 0
        then [RelOp.removeOp id
          ((loadManyRel st id).filter (fun e => !(dedupIds fks).contains e))]
        else []) ++
      (if ((dedupIds fks).filter (fun c => !(loadManyRel st id).contains c)).length > 0
        then [RelOp.addOp id
          ((dedupIds fks).filter (fun c => !(loadManyRel st id).contains c))]
        else []) ∧
    ∀ x, x ∈ loadManyRel st id → x ∈ dedupIds fks →
      ∀ op ∈ (replaceAssociations ctx st id assoc fks).trace, x ∉ relOpIds op := by
  have hlen : (st.children.filter (fun c => (dedupIds fks).contains c)).length =
      (dedupIds fks).length := by
    apply Nat.le_antisymm
    · have hsub : st.children.filter (fun c => (dedupIds fks).contains c) ⊆
          dedupIds fks := by
        intro c hc
        simpa using (List.mem_filter.mp hc).2
      exact ((hnodup.filter _).subperm hsub).length_le
    · have hsub : dedupIds fks ⊆
          st.children.filter (fun c => (dedupIds fks).contains c) := by
        intro c hc
        exact List.mem_filter.mpr ⟨hex c hc, by simpa using hc⟩
      exact ((dedupIds_nodup fks).subperm hsub).length_le
  have hbne : ((st.children.filter (fun c => (dedupIds fks).contains c)).length !=
      (dedupIds fks).length) = false := by
    rw [hlen]
    exact bne_self_eq_false _
  have htrace : (replaceAssociations ctx st id assoc fks).trace =
      (if ((loadManyRel st id).filter (fun e => !(dedupIds fks).contains e)).length > 0
        then [RelOp.removeOp id
          ((loadManyRel st id).filter (fun e => !(dedupIds fks).contains e))]
        else []) ++
      (if ((dedupIds fks).filter (fun c => !(loadManyRel st id).contains c)).length > 0
        then [RelOp.addOp id
          ((dedupIds fks).filter (fun c => !(loadManyRel st id).contains c))]
        else []) := by
    simp only [replaceAssociations, hpar, Bool.not_true, Bool.false_eq_true, if_false,
      hrel, hbne, Bool.and_false, loadRelatedEntities, RelKind.isToMany, if_true]
  refine ⟨htrace, ?_⟩
  intro x hxE hxR op hop
  rw [htrace] at hop
  rcases List.mem_append.mp hop with h | h
  · split at h
    · simp only [List.mem_singleton] at h
      subst h
      intro hxr
      have h2 := (List.mem_filter.mp hxr).2
      simp at h2
      exact h2 hxR
    · cases h
  · split at h
    · simp only [List.mem_singleton] at h
      subst h
      intro hxa
      have h2 := (List.mem_filter.mp hxa).2
      simp at h2
      exact h2 hxE
    · cases h

/-- State for the C6 witness: parent 1 with existing children 1, 2, 3. -/
def deltaState : AssocState :=
  { parents := [1], children := [1, 2, 3, 4], rel := [(1, 1), (1, 2), (1, 3)] }

/-- Witness for C6: existing children `[1,2,3]`, requested `[2,3,4]` —
exactly one `remove([1])` then one `add([4])`, and no issued mutation
touches child 2. -/
theorem replace_one_to_many_minimal_deltas_witness :
    (deltaState.parents.contains 1 = true ∧
      lookupRelation childrenCtx "children" = some RelKind.oneToMany ∧
      deltaState.children.Nodup ∧
      ∀ x ∈ dedupIds [2, 3, 4], x ∈ deltaState.children) ∧
    (replaceAssociations childrenCtx deltaState 1 "children" [2, 3, 4]).trace =
      [RelOp.removeOp 1 [1], RelOp.addOp 1 [4]] ∧
    ∀ op ∈ (replaceAssociations childrenCtx deltaState 1 "children" [2, 3, 4]).trace,
      2 ∉ relOpIds op := by
  refine ⟨⟨by decide, by decide, by decide, by decide⟩, ?_, ?_⟩
  · exact (replace_one_to_many_minimal_deltas childrenCtx deltaState 1 "children"
      [2, 3, 4] (by decide) (by decide) (by decide) (by decide)).1.trans (by decide)
  · exact (replace_one_to_many_minimal_deltas childrenCtx deltaState 1 "children"
      [2, 3, 4] (by decide) (by decide) (by decide) (by decide)).2 2 (by decide)
      (by decide)

/-- The already-satisfied test of `addAssociation`: `fk` is in the loaded
set (to-many) or is the current value (to-one). -/
def alreadyAssociated (st : AssocState) (kind : RelKind) (id fk : Nat) : Bool :=
  if kind.isToMany then (loadRelatedEntities st kind id).contains fk
  else (loadRelatedEntities st kind id).head? == some fk

theorem relAdd_parents (st : AssocState) (p : Nat) (fks : List Nat) :
    (relAdd st p fks).parents = st.parents := rfl

theorem relAdd_children (st : AssocState) (p : Nat) (fks : List Nat) :
    (relAdd st p fks).children = st.children := rfl

theorem relSetOne_parents (st : AssocState) (p : Nat) (fk : Option Nat) :
    (relSetOne st p fk).parents = st.parents := rfl

theorem relSetOne_children (st : AssocState) (p : Nat) (fk : Option Nat) :
    (relSetOne st p fk).children = st.children := rfl

theorem contains_append_singleton_self (l : List Nat) (a : Nat) :
    (l ++ [a]).contains a = true :=
  List.elem_eq_true_of_mem (List.mem_append_right _ (List.mem_singleton.mpr rfl))

theorem loadRelatedEntities_toOne_head (st : AssocState) (kind : RelKind) (id : Nat)
    (hk : kind.isToMany = false) :
    (loadRelatedEntities st kind id).head? = loadOneRel st id := by
  simp only [loadRelatedEntities, hk, Bool.false_eq_true, if_false]
  cases loadOneRel st id <;> rfl

/-- C7 amended.  Calling `add(parentId, fk)` twice in succession (parent
and child existing) issues at most one relation mutation in total: the
first call mutates exactly when `fk` was not already associated, the
second call is always a no-op (empty mutation trace, unchanged state) and
returns the same hydrated parent as the first. -/
theorem add_twice_second_noop
    (ctx : AssocCtx) (st : AssocState) (id fk : Nat) (assoc : String) (kind : RelKind)
    (hpar : st.parents.contains id = true)
    (hch : st.children.contains fk = true)
    (hrel : lookupRelation ctx assoc = some kind) :
    (addAssociation ctx (addAssociation ctx st id assoc fk).state id assoc fk).trace
      = [] ∧
    (addAssociation ctx (addAssociation ctx st id assoc fk).state id assoc fk).state =
      (addAssociation ctx st id assoc fk).state ∧
    (addAssociation ctx (addAssociation ctx st id assoc fk).state id assoc fk).result =
      (addAssociation ctx st id assoc fk).result ∧
    (addAssociation ctx st id assoc fk).trace.length ≤ 1 ∧
    (alreadyAssociated st kind id fk = false →
      (addAssociation ctx st id assoc fk).trace.length = 1) := by
  have hparm : id ∈ st.parents := by simpa using hpar
  have hchm : fk ∈ st.children := by simpa using hch
  cases kind with
  | manyToMany =>
      by_cases halm : fk ∈ loadManyRel st id
      · simp [addAssociation, alreadyAssociated, hparm, hchm, hrel,
          loadRelatedEntities, RelKind.isToMany, halm]
      · simp [addAssociation, alreadyAssociated, hparm, hchm, hrel,
          loadRelatedEntities, RelKind.isToMany, halm, relAdd_parents,
          relAdd_children, loadManyRel_relAdd]
  | oneToMany =>
      by_cases halm : fk ∈ loadManyRel st id
      · simp [addAssociation, alreadyAssociated, hparm, hchm, hrel,
          loadRelatedEntities, RelKind.isToMany, halm]
      · simp [addAssociation, alreadyAssociated, hparm, hchm, hrel,
          loadRelatedEntities, RelKind.isToMany, halm, relAdd_parents,
          relAdd_children, loadManyRel_relAdd]
  | manyToOne =>
      by_cases halm : loadOneRel st id = some fk
      · simp [addAssociation, alreadyAssociated, hparm, hchm, hrel,
          RelKind.isToMany, loadRelatedEntities_toOne_head, halm]
      · simp [addAssociation, alreadyAssociated, hparm, hchm, hrel,
          RelKind.isToMany, loadRelatedEntities_toOne_head, halm,
          relSetOne_parents, relSetOne_children, loadOneRel_relSetOne]
  | oneToOne =>
      by_cases halm : loadOneRel st id = some fk
      · simp [addAssociation, alreadyAssociated, hparm, hchm, hrel,
          RelKind.isToMany, loadRelatedEntities_toOne_head, halm]
      · simp [addAssociation, alreadyAssociated, hparm, hchm, hrel,
          RelKind.isToMany, loadRelatedEntities_toOne_head, halm,
          relSetOne_parents, relSetOne_children, loadOneRel_relSetOne]

/-- State for the C7 witness: parent 1 exists, child 4 exists and is not
yet associated. -/
def addState : AssocState :=
  { parents := [1], children := [4], rel := [] }

/-- Witness for C7: adding child 4 to parent 1 twice — the first call
issues one `add`, the second call issues nothing, leaves the state
unchanged and returns the same hydrated parent. -/
theorem add_twice_second_noop_witness :
    (addState.parents.contains 1 = true ∧ addState.children.contains 4 = true ∧
      lookupRelation childrenCtx "children" = some RelKind.oneToMany) ∧
    (addAssociation childrenCtx (addAssociation childrenCtx addState 1 "children" 4).state
        1 "children" 4).trace = [] ∧
    (addAssociation childrenCtx (addAssociation childrenCtx addState 1 "children" 4).state
        1 "children" 4).result =
      (addAssociation childrenCtx addState 1 "children" 4).result ∧
    (alreadyAssociated addState RelKind.oneToMany 1 4 = false →
      (addAssociation childrenCtx addState 1 "children" 4).trace.length = 1) := by
  have h := add_twice_second_noop childrenCtx addState 1 4 "children" RelKind.oneToMany
    (by decide) (by decide) (by decide)
  exact ⟨⟨by decide, by decide, by decide⟩, h.1, h.2.2.1, h.2.2.2.2⟩

/-- A sub-criterion that is a single leaf condition compiling to exactly
one comparison: one known-column field key with a plain equality value, or
with a modifier object contributing exactly one supported comparison. -/
def isLeafBranch (cols : List String) (c : Crit) : Bool :=
  match c with
  | .node [.fieldEq k _] => cols.contains k
  | .node [.fieldMods k ms] =>
      cols.contains k &&
        ((ms.filterMap (fun mv => applyComparison k mv.1 mv.2)).length == 1)
  | _ => false

theorem all_of_filterMap_nil {α : Type} (f : α → Option SqlCond) (g : SqlCond → Bool) :
    ∀ (ms : List α), ms.filterMap f = [] →
      (ms.all fun mv => match f mv with | some a => g a | none => true) = true := by
  intro ms
  induction ms with
  | nil => intro _; rfl
  | cons mv rest ih =>
      intro h
      rw [List.filterMap_cons] at h
      cases hf : f mv with
      | none =>
          rw [hf] at h
          simp only [List.all_cons, hf, ih h, Bool.and_true]
      | some a =>
          rw [hf] at h
          cases h

theorem all_of_filterMap_singleton {α : Type} (f : α → Option SqlCond)
    (g : SqlCond → Bool) :
    ∀ (ms : List α) (a : SqlCond), ms.filterMap f = [a] →
      (ms.all fun mv => match f mv with | some x => g x | none => true) = g a := by
  intro ms
  induction ms with
  | nil => intro a h; cases h
  | cons mv rest ih =>
      intro a h
      rw [List.filterMap_cons] at h
      cases hf : f mv with
      | none =>
          rw [hf] at h
          simp only [List.all_cons, hf, ih a h, Bool.true_and]
      | some x =>
          rw [hf] at h
          injection h with h1 h2
          subst h1
          simp only [List.all_cons, hf, all_of_filterMap_nil f g rest h2, Bool.and_true]

theorem leafBranch_spec (cols : List String) (c : Crit)
    (h : isLeafBranch cols c = true) :
    ∃ a, (∀ conn, applyCriteria cols c conn = [(conn, a)]) ∧
      ∀ r, scopedMatches cols r c = evalAtom r a := by
  cases c with
  | node entries =>
      cases entries with
      | nil => simp [isLeafBranch] at h
      | cons e rest =>
          cases rest with
          | cons e2 rest2 => simp [isLeafBranch] at h
          | nil =>
              cases e with
              | andGroup subs => simp [isLeafBranch] at h
              | orGroup subs => simp [isLeafBranch] at h
              | fieldEq k v =>
                  rw [isLeafBranch] at h
                  have hm : k ∈ cols := by simpa using h
                  refine ⟨.eqC k v, ?_, ?_⟩
                  · intro conn
                    simp [applyCriteria, applyCriteriaEntries, applyCriteriaEntry, hm]
                  · intro r
                    simp [scopedMatches, scopedMatchesEntries, scopedMatchesEntry, hm]
              | fieldMods k ms =>
                  rw [isLeafBranch] at h
                  rw [Bool.and_eq_true] at h
                  obtain ⟨hk, hlen⟩ := h
                  have hm : k ∈ cols := by simpa using hk
                  obtain ⟨a, hfm⟩ := List.length_eq_one.mp (by simpa using hlen)
                  refine ⟨a, ?_, ?_⟩
                  · intro conn
                    simp [applyCriteria, applyCriteriaEntries, applyCriteriaEntry, hm,
                      hfm]
                  · intro r
                    simp only [scopedMatches, scopedMatchesEntries, scopedMatchesEntry,
                      hk, if_true, Bool.and_true,
                      all_of_filterMap_singleton _ (evalAtom r) ms a hfm]

theorem evalGo_orList (cols : List String) (r : Record) :
    ∀ (subs : List Crit) (done cur : Bool),
      (∀ s ∈ subs, isLeafBranch cols s = true) →
      evalGo r done cur (applyCriteriaList cols subs Conn.orW) =
        (done || cur || subs.any (fun s => scopedMatches cols r s)) := by
  intro subs
  induction subs with
  | nil =>
      intro done cur _
      simp [applyCriteriaList, evalGo]
  | cons s rest ih =>
      intro done cur hleaf
      obtain ⟨a, hcomp, hsem⟩ := leafBranch_spec cols s (hleaf s (List.mem_cons_self s rest))
      rw [applyCriteriaList, hcomp Conn.orW, List.singleton_append, evalGo,
        ih (done || cur) (evalAtom r a)
          (fun t ht => hleaf t (List.mem_cons_of_mem s ht))]
      rw [List.any_cons, ← hsem r]
      cases done <;> cases cur <;> cases scopedMatches cols r s <;> simp

/-- C3 amended.  For a where condition `\x7bor: [c1, ..., cn]\x7d` whose
branches are each a single leaf comparison on a known column (as in the
spec's example), the compiled predicate matches a record iff at least one
branch matches it.  In general an `and`/`or` node is NOT compiled as a
scoped group: every leaf of every child is appended to the enclosing flat
clause list with the node's connective, so multi-field or nested branches
follow SQL AND/OR precedence over that flat list rather than the scoped
tree semantics (see the counterexample). -/
theorem or_of_leaf_branches_matches_iff
    (cols : List String) (subs : List Crit) (r : Record)
    (hne : subs ≠ [])
    (hleaf : ∀ s ∈ subs, isLeafBranch cols s = true) :
    (evalClauses r (applyCriteria cols (.node [.orGroup subs]) .andW) = true ↔
      ∃ s ∈ subs, scopedMatches cols r s = true) := by
  have hred : applyCriteria cols (Crit.node [CritEntry.orGroup subs]) Conn.andW =
      applyCriteriaList cols subs Conn.orW := by
    simp [applyCriteria, applyCriteriaEntries, applyCriteriaEntry]
  rw [hred]
  cases subs with
  | nil => exact absurd rfl hne
  | cons s rest =>
      obtain ⟨a, hcomp, hsem⟩ :=
        leafBranch_spec cols s (hleaf s (List.mem_cons_self s rest))
      rw [applyCriteriaList, hcomp Conn.orW, List.singleton_append, evalClauses,
        evalGo_orList cols r rest false (evalAtom r a)
          (fun t ht => hleaf t (List.mem_cons_of_mem s ht)),
        ← hsem r]
      rw [Bool.false_or, ← List.any_cons]
      exact List.any_eq_true

/-- The or-condition of the spec's logical-composition example. -/
def orExample : List Crit :=
  [Crit.node [.fieldEq "status" (.strV "active")],
   Crit.node [.fieldMods "age" [(">", .single (.intV 25))]]]

/-- Fixture row satisfying only the status branch. -/
def rowActive : Record :=
  [("id", .intV 1), ("status", .strV "active"), ("age", .intV 20)]

/-- Fixture row satisfying only the age branch. -/
def rowOld : Record :=
  [("id", .intV 2), ("status", .strV "x"), ("age", .intV 30)]

/-- Fixture row satisfying neither branch. -/
def rowNeither : Record :=
  [("id", .intV 3), ("status", .strV "x"), ("age", .intV 20)]

/-- Witness for C3: `\x7bor: [\x7bstatus: "active"\x7d, \x7bage:
\x7b">": 25\x7d\x7d]\x7d` — one fixture row per branch matches the
compiled predicate, a row satisfying neither does not, and the
branch-equivalence holds on each row. -/
theorem or_of_leaf_branches_matches_iff_witness :
    (orExample ≠ [] ∧ ∀ s ∈ orExample, isLeafBranch testSchema.columns s = true) ∧
    (evalClauses rowActive
        (applyCriteria testSchema.columns (.node [.orGroup orExample]) .andW) = true ↔
      ∃ s ∈ orExample, scopedMatches testSchema.columns rowActive s = true) ∧
    (evalClauses rowOld
        (applyCriteria testSchema.columns (.node [.orGroup orExample]) .andW) = true ↔
      ∃ s ∈ orExample, scopedMatches testSchema.columns rowOld s = true) ∧
    evalClauses rowActive
      (applyCriteria testSchema.columns (.node [.orGroup orExample]) .andW) = true ∧
    evalClauses rowOld
      (applyCriteria testSchema.columns (.node [.orGroup orExample]) .andW) = true ∧
    evalClauses rowNeither
      (applyCriteria testSchema.columns (.node [.orGroup orExample]) .andW) = false := by
  refine ⟨⟨List.cons_ne_nil _ _, by decide⟩, ?_, ?_, by decide, by decide, by decide⟩
  · exact or_of_leaf_branches_matches_iff testSchema.columns orExample rowActive
      (List.cons_ne_nil _ _) (by decide)
  · exact or_of_leaf_branches_matches_iff testSchema.columns orExample rowOld
      (List.cons_ne_nil _ _) (by decide)

end BlueprintCrud
